import Mathlib

/-!
Verification of the Sokoban core of the GameToggle repository.

The definitions below are a shallow embedding of `src/types.ts`,
`src/logic.ts` and the Sokoban session/editor logic of
`src/games/SokobanGame.tsx`.  Grids are lists of rows of single-character
cells (the TypeScript `Grid = string[][]` always holds one-character
strings drawn from the `CellType` enum), positions are integer pairs
(JavaScript numbers used as array indices), and fallible operations
return `Option`.
-/

/-- A cell of the grid: one character of the `CellType` enum in `src/types.ts`. -/
abbrev Cell := Char

/-- `Grid = string[][]` from `src/types.ts`: rows of single-character cells. -/
abbrev Grid := List (List Cell)

namespace CellType

def Floor : Cell := ' '

def Wall : Cell := '#'

def Box : Cell := '$'

def Target : Cell := '.'

def BoxOnTarget : Cell := '*'

def Player : Cell := '@'

def PlayerOnTarget : Cell := '+'

end CellType

/-- `Position` from `src/types.ts`: x is the column, y is the row. -/
structure Position where
  x : Int
  y : Int
deriving Repr, DecidableEq

/-- `Direction` from `src/types.ts`. -/
inductive Direction where
  | UP
  | DOWN
  | LEFT
  | RIGHT
deriving Repr, DecidableEq

/-- `GameState` from `src/types.ts`. -/
structure GameState where
  grid : Grid
  playerPos : Position
  moves : Nat
  levelCompleted : Bool
deriving Repr, DecidableEq

/-- Reading a cell by (column, row), with an out-of-range default that is
not one of the seven `CellType` characters (JavaScript would yield
`undefined`, which compares unequal to every cell character). -/
def cellAtN (grid : Grid) (x y : Nat) : Cell :=
  (grid.getD y []).getD x '?'

/-- Reading a cell at integer coordinates; callers in the source only do
this after their own bounds checks, so the coordinates are nonnegative. -/
def cellAt (grid : Grid) (x y : Int) : Cell :=
  cellAtN grid x.toNat y.toNat

/-- Writing one cell (`newGrid[y][x] = c` on the cloned grid). -/
def setCell (grid : Grid) (x y : Nat) (c : Cell) : Grid :=
  grid.set y ((grid.getD y []).set x c)

/-- `cloneGrid` from `src/logic.ts`; in a pure embedding a deep copy is
the grid itself, row by row. -/
def cloneGrid (grid : Grid) : Grid :=
  grid.map (fun row => row)

/-- `checkWin` from `src/logic.ts`: false as soon as some cell is a loose
Box, true otherwise. -/
def checkWin (grid : Grid) : Bool :=
  grid.all (fun row => row.all (fun cell => !(cell == CellType.Box)))

/-- The parser's test `char === CellType.Player || char === CellType.PlayerOnTarget`. -/
def isPlayerChar (c : Cell) : Bool :=
  c == CellType.Player || c == CellType.PlayerOnTarget

/-- Result record of `parseLevel` in `src/logic.ts`. -/
structure ParseResult where
  grid : Grid
  playerPos : Position
deriving Repr, DecidableEq

/-- The row scan inside `parseLevel`: `row.forEach((char, x) => ...)`,
overwriting `playerPos` at every player character. -/
def scanRowForPlayer (y : Nat) (row : List Cell) (acc : Position) : Position :=
  row.enum.foldl (fun acc2 xc => if isPlayerChar xc.2 then ⟨xc.1, y⟩ else acc2) acc

/-- `parseLevel` from `src/logic.ts`: split every row string into
single-character cells, record the (last) player character's coordinates,
defaulting to (0,0) when none is found. -/
def parseLevel (levelDesign : List String) : ParseResult :=
  let grid : Grid := levelDesign.map String.data
  let playerPos :=
    grid.enum.foldl (fun acc yr => scanRowForPlayer yr.1 yr.2 acc) ⟨0, 0⟩
  ⟨grid, playerPos⟩

/-- `getOffset` from `src/logic.ts`: (dx, dy) per direction. -/
def getOffset : Direction → Int × Int
  | .UP => (0, -1)
  | .DOWN => (0, 1)
  | .LEFT => (-1, 0)
  | .RIGHT => (1, 0)

/-- The success record returned by `movePlayer`. -/
structure MoveResult where
  grid : Grid
  playerPos : Position
  moved : Bool
  pushed : Bool
deriving Repr, DecidableEq

/-- The bounds test of `src/logic.ts` (both for the player step and the
box destination): row index against the number of rows, column index
against the length of row 0. -/
def isOutOfBounds (grid : Grid) (x y : Int) : Bool :=
  y < 0 || (grid.length : Int) ≤ y || x < 0 || ((grid.getD 0 []).length : Int) ≤ x

/-- The common tail of `movePlayer` (`if (canMove) { ... }`): clear the
old player cell, write the new one, return the new state. `g` is the
cloned grid after the possible box write, `targetCell` the cell the
player steps onto as read from the original grid. -/
def finishMove (g : Grid) (playerPos : Position) (targetCell : Cell)
    (newX newY : Int) (pushed : Bool) : MoveResult :=
  let oldCell := cellAt g playerPos.x playerPos.y
  let g1 := setCell g playerPos.x.toNat playerPos.y.toNat
    (if oldCell = CellType.PlayerOnTarget then CellType.Target else CellType.Floor)
  let isTargetUnderneath :=
    targetCell = CellType.Target ∨ targetCell = CellType.BoxOnTarget ∨
      targetCell = CellType.PlayerOnTarget
  let g2 := setCell g1 newX.toNat newY.toNat
    (if isTargetUnderneath then CellType.PlayerOnTarget else CellType.Player)
  ⟨g2, ⟨newX, newY⟩, true, pushed⟩

/-- `movePlayer` from `src/logic.ts`. -/
def movePlayer (currentGrid : Grid) (playerPos : Position) (dir : Direction) :
    Option MoveResult :=
  let off := getOffset dir
  let newX := playerPos.x + off.1
  let newY := playerPos.y + off.2
  if isOutOfBounds currentGrid newX newY then
    none
  else
    let targetCell := cellAt currentGrid newX newY
    let newGrid := cloneGrid currentGrid
    if targetCell = CellType.Floor ∨ targetCell = CellType.Target then
      some (finishMove newGrid playerPos targetCell newX newY false)
    else if targetCell = CellType.Box ∨ targetCell = CellType.BoxOnTarget then
      let boxNextX := newX + off.1
      let boxNextY := newY + off.2
      if isOutOfBounds newGrid boxNextX boxNextY then
        none
      else
        let boxDestCell := cellAt newGrid boxNextX boxNextY
        if boxDestCell = CellType.Floor ∨ boxDestCell = CellType.Target then
          let newBoxChar :=
            if boxDestCell = CellType.Target then CellType.BoxOnTarget else CellType.Box
          let g := setCell newGrid boxNextX.toNat boxNextY.toNat newBoxChar
          some (finishMove g playerPos targetCell newX newY true)
        else
          none
    else
      none

/-- `MAX_HISTORY` from `src/games/SokobanGame.tsx`. -/
def MAX_HISTORY : Nat := 100

/-- The history push inside `handleMove`:
`[...history, gameState]`, then `shift()` (drop the oldest entry) when the
length exceeds `MAX_HISTORY`. -/
def pushHistory (h : List GameState) (s : GameState) : List GameState :=
  let newHistory := h ++ [s]
  if newHistory.length > MAX_HISTORY then newHistory.tail else newHistory

/-- The state transition of `handleMove` in `src/games/SokobanGame.tsx`
(the pure part: sound and modal effects dropped).  A rejected move leaves
state and history untouched; an accepted move pushes the prior snapshot
and builds the new `GameState`. -/
def handleMove (gameState : GameState) (history : List GameState)
    (dir : Direction) : GameState × List GameState :=
  if gameState.levelCompleted then (gameState, history)
  else
    match movePlayer gameState.grid gameState.playerPos dir with
    | none => (gameState, history)
    | some result =>
      let newHistory := pushHistory history gameState
      let isWin := checkWin result.grid
      (⟨result.grid, result.playerPos, gameState.moves + 1, isWin⟩, newHistory)

/-- The state transition of `handleUndo` in `src/games/SokobanGame.tsx`:
a no-op on empty history or on a completed level, otherwise restore the
most recent snapshot and drop it from the history. -/
def handleUndo (gameState : GameState) (history : List GameState) :
    GameState × List GameState :=
  if history.length = 0 ∨ gameState.levelCompleted then (gameState, history)
  else (history.getLastD gameState, history.dropLast)

/-- The editor's target-ness test in `handleEditorCellClick`. -/
def isTargetUnder (c : Cell) : Bool :=
  c == CellType.Target || c == CellType.BoxOnTarget || c == CellType.PlayerOnTarget

/-- The "smart placement" cell computation of `handleEditorCellClick`:
what gets written at the clicked cell, given its current content and the
active tool. -/
def editorNewCell (currentCell : Cell) (activeTool : Cell) : Cell :=
  if activeTool == CellType.Box && isTargetUnder currentCell then
    CellType.BoxOnTarget
  else if activeTool == CellType.Player && isTargetUnder currentCell then
    CellType.PlayerOnTarget
  else if activeTool == CellType.Target then
    if currentCell == CellType.Box then CellType.BoxOnTarget
    else if currentCell == CellType.Player then CellType.PlayerOnTarget
    else if currentCell == CellType.Floor then CellType.Target
    else CellType.Target
  else activeTool

/-- One cell of the single-player sweep in `handleEditorCellClick`:
Player reverts to Floor, PlayerOnTarget reverts to Target. -/
def clearPlayerCell (c : Cell) : Cell :=
  if c == CellType.Player then CellType.Floor
  else if c == CellType.PlayerOnTarget then CellType.Target
  else c

/-- The single-player sweep of `handleEditorCellClick`: every Player cell
becomes Floor, every PlayerOnTarget cell becomes Target.  The source
loops rows `0..length` and columns `0..row0.length`, which visits every
cell of a rectangular grid. -/
def clearPlayers (g : Grid) : Grid :=
  g.map (fun row => row.map clearPlayerCell)

/-- `handleEditorCellClick` from `src/games/SokobanGame.tsx` (the grid
update passed to `setEditorGrid`). -/
def handleEditorCellClick (grid : Grid) (x y : Nat) (activeTool : Cell) : Grid :=
  let currentCell := cellAtN grid x y
  let newCell := editorNewCell currentCell activeTool
  let g1 :=
    if activeTool == CellType.Player || newCell == CellType.PlayerOnTarget then
      clearPlayers grid
    else grid
  setCell g1 x y newCell

/-- The three counters of `saveLevel`. -/
structure EditorCounts where
  playerCount : Nat
  boxCount : Nat
  targetCount : Nat
deriving Repr, DecidableEq

/-- One cell's contribution to the `saveLevel` counters (the three `if`
statements of the source's `forEach`). -/
def tallyCell (acc : EditorCounts) (cell : Cell) : EditorCounts :=
  let a1 :=
    if cell == CellType.Player || cell == CellType.PlayerOnTarget then
      { acc with playerCount := acc.playerCount + 1 }
    else acc
  let a2 :=
    if cell == CellType.Box || cell == CellType.BoxOnTarget then
      { a1 with boxCount := a1.boxCount + 1 }
    else a1
  if cell == CellType.Target || cell == CellType.BoxOnTarget ||
      cell == CellType.PlayerOnTarget then
    { a2 with targetCount := a2.targetCount + 1 }
  else a2

/-- The counting pass of `saveLevel` over the editor grid. -/
def countEditorCells (g : Grid) : EditorCounts :=
  g.foldl (fun acc row => row.foldl tallyCell acc) ⟨0, 0, 0⟩

/-- Outcome of `saveLevel`: either `setEditorError(...)` with no save, or
the serialized level rows appended to the custom-level collection. -/
inductive SaveResult where
  | error : String → SaveResult
  | saved : List String → SaveResult
deriving Repr, DecidableEq

/-- Modelled from the spec: `gridToStrings` is imported from
`src/logic.ts` by `SokobanGame.tsx` but the provided `src/logic.ts` does
not contain its definition.  Per the spec (level text format), each row
serializes to the string of its cell characters, one character per cell,
the persisted representation that must round-trip through parse. -/
def gridToStrings (g : Grid) : List String :=
  g.map (fun row => String.mk row)

/-- `saveLevel` from `src/games/SokobanGame.tsx` (validation and
serialization; storage and mode switching are the caller's effects). -/
def saveLevel (editorGrid : Grid) : SaveResult :=
  let c := countEditorCells editorGrid
  if c.playerCount ≠ 1 then
    .error "Level must have exactly one player (@)."
  else if c.boxCount = 0 then
    .error "Level must have at least one box ($)."
  else if c.boxCount ≠ c.targetCount then
    .error ("Mismatch: " ++ toString c.boxCount ++ " boxes and " ++
      toString c.targetCount ++ " targets.")
  else
    .saved (gridToStrings editorGrid)

/-- Rectangularity: every row has the length of row 0 (the spec's Grid
invariant; the source's bounds checks and editor loops assume it). -/
def Rect (grid : Grid) : Prop :=
  ∀ row ∈ grid, row.length = (grid.getD 0 []).length

instance : DecidablePred Rect := fun grid =>
  List.decidableBAll _ grid

/-- A position indexing a cell inside the grid (the spec's Position
invariant). -/
def posInBounds (grid : Grid) (p : Position) : Prop :=
  0 ≤ p.x ∧ p.x < ((grid.getD 0 []).length : Int) ∧
    0 ≤ p.y ∧ p.y < (grid.length : Int)

instance (grid : Grid) (p : Position) : Decidable (posInBounds grid p) := by
  unfold posInBounds; infer_instance

/-- Number of player-bearing cells of a grid. -/
def countPlayerCells (g : Grid) : Nat :=
  (g.map (fun row => row.countP isPlayerChar)).sum

/-- The step destination: position plus the direction's unit offset. -/
def stepPos (p : Position) (dir : Direction) : Position :=
  ⟨p.x + (getOffset dir).1, p.y + (getOffset dir).2⟩

theorem cloneGrid_eq (g : Grid) : cloneGrid g = g := by
  simp [cloneGrid]

theorem setCell_length (g : Grid) (x y : Nat) (c : Cell) :
    (setCell g x y c).length = g.length := by
  simp [setCell]

theorem getD_zero_setCell (g : Grid) (x y : Nat) (c : Cell) :
    ((setCell g x y c).getD 0 []).length = ((g.getD 0 []).length) := by
  unfold setCell
  rcases Nat.eq_zero_or_pos y with hy | hy
  · subst hy
    by_cases h : 0 < g.length
    · simp [List.getD, List.getElem?_set_eq_of_lt _ h]
    · have : g.length ≤ 0 := by omega
      simp [List.set_eq_of_length_le this]
  · have : (0 : Nat) ≠ y := by omega
    simp [List.getD, List.getElem?_set_ne (Ne.symm this)]

theorem row_length_setCell (g : Grid) (x y : Nat) (c : Cell) (y' : Nat) :
    ((setCell g x y c).getD y' []).length = (g.getD y' []).length := by
  unfold setCell
  by_cases hyy : y = y'
  · subst hyy
    by_cases h : y < g.length
    · simp [List.getD, List.getElem?_set_eq_of_lt _ h]
    · have : g.length ≤ y := by omega
      simp [List.set_eq_of_length_le this]
  · simp [List.getD, List.getElem?_set_ne hyy]

theorem cellAtN_setCell_self (g : Grid) (x y : Nat) (c : Cell)
    (hy : y < g.length) (hx : x < (g.getD y []).length) :
    cellAtN (setCell g x y c) x y = c := by
  unfold cellAtN setCell
  have hx' : x < (g[y]?.getD []).length := by simpa [List.getD] using hx
  simp [List.getD, List.getElem?_set_eq_of_lt _ hy, List.getElem?_set_eq_of_lt _ hx']

theorem cellAtN_setCell_ne (g : Grid) (x y : Nat) (c : Cell) (x' y' : Nat)
    (h : x' ≠ x ∨ y' ≠ y) :
    cellAtN (setCell g x y c) x' y' = cellAtN g x' y' := by
  unfold cellAtN setCell
  by_cases hyy : y = y'
  · subst hyy
    have hxx : x ≠ x' := by
      rcases h with h | h
      · exact fun he => h he.symm
      · exact absurd rfl h
    by_cases hlen : y < g.length
    · simp [List.getD, List.getElem?_set_eq_of_lt _ hlen, List.getElem?_set_ne hxx]
    · have : g.length ≤ y := by omega
      simp [List.set_eq_of_length_le this]
  · simp [List.getD, List.getElem?_set_ne hyy]

theorem toNat_ne_of_ne {a b : Int} (ha : 0 ≤ a) (hb : 0 ≤ b) (hne : a ≠ b) :
    a.toNat ≠ b.toNat := by
  omega

theorem isOutOfBounds_eq_false (g : Grid) (x y : Int) :
    isOutOfBounds g x y = false ↔
      0 ≤ x ∧ x < ((g.getD 0 []).length : Int) ∧ 0 ≤ y ∧ y < (g.length : Int) := by
  simp [isOutOfBounds]
  omega

/-- The box destination: two unit offsets from the player. -/
def boxPos (p : Position) (dir : Direction) : Position :=
  stepPos (stepPos p dir) dir

theorem movePlayer_none_of_oob (g : Grid) (pos : Position) (dir : Direction)
    (h : isOutOfBounds g (stepPos pos dir).x (stepPos pos dir).y = true) :
    movePlayer g pos dir = none := by
  simp only [stepPos] at h
  simp [movePlayer, h]

theorem movePlayer_plain (g : Grid) (pos : Position) (dir : Direction)
    (hin : isOutOfBounds g (stepPos pos dir).x (stepPos pos dir).y = false)
    (htc : cellAt g (stepPos pos dir).x (stepPos pos dir).y = CellType.Floor ∨
      cellAt g (stepPos pos dir).x (stepPos pos dir).y = CellType.Target) :
    movePlayer g pos dir =
      some (finishMove g pos (cellAt g (stepPos pos dir).x (stepPos pos dir).y)
        (stepPos pos dir).x (stepPos pos dir).y false) := by
  simp only [stepPos] at hin htc ⊢
  simp only [movePlayer, cloneGrid_eq, hin, Bool.false_eq_true, if_false]
  rw [if_pos htc]

theorem movePlayer_push_ok (g : Grid) (pos : Position) (dir : Direction)
    (hin : isOutOfBounds g (stepPos pos dir).x (stepPos pos dir).y = false)
    (htc : cellAt g (stepPos pos dir).x (stepPos pos dir).y = CellType.Box ∨
      cellAt g (stepPos pos dir).x (stepPos pos dir).y = CellType.BoxOnTarget)
    (hbin : isOutOfBounds g (boxPos pos dir).x (boxPos pos dir).y = false)
    (hbd : cellAt g (boxPos pos dir).x (boxPos pos dir).y = CellType.Floor ∨
      cellAt g (boxPos pos dir).x (boxPos pos dir).y = CellType.Target) :
    movePlayer g pos dir =
      some (finishMove
        (setCell g (boxPos pos dir).x.toNat (boxPos pos dir).y.toNat
          (if cellAt g (boxPos pos dir).x (boxPos pos dir).y = CellType.Target
            then CellType.BoxOnTarget else CellType.Box))
        pos (cellAt g (stepPos pos dir).x (stepPos pos dir).y)
        (stepPos pos dir).x (stepPos pos dir).y true) := by
  have hne : ¬(cellAt g (stepPos pos dir).x (stepPos pos dir).y = CellType.Floor ∨
      cellAt g (stepPos pos dir).x (stepPos pos dir).y = CellType.Target) := by
    rcases htc with h | h <;> rw [h] <;> decide
  simp only [stepPos, boxPos] at hin htc hbin hbd hne ⊢
  simp only [movePlayer, cloneGrid_eq, hin, hbin, Bool.false_eq_true, if_false]
  rw [if_neg hne, if_pos htc, if_pos hbd]

theorem movePlayer_push_oob (g : Grid) (pos : Position) (dir : Direction)
    (hin : isOutOfBounds g (stepPos pos dir).x (stepPos pos dir).y = false)
    (htc : cellAt g (stepPos pos dir).x (stepPos pos dir).y = CellType.Box ∨
      cellAt g (stepPos pos dir).x (stepPos pos dir).y = CellType.BoxOnTarget)
    (hbin : isOutOfBounds g (boxPos pos dir).x (boxPos pos dir).y = true) :
    movePlayer g pos dir = none := by
  have hne : ¬(cellAt g (stepPos pos dir).x (stepPos pos dir).y = CellType.Floor ∨
      cellAt g (stepPos pos dir).x (stepPos pos dir).y = CellType.Target) := by
    rcases htc with h | h <;> rw [h] <;> decide
  simp only [stepPos, boxPos] at hin htc hbin hne ⊢
  simp only [movePlayer, cloneGrid_eq, hin, hbin, Bool.false_eq_true, if_false]
  rw [if_neg hne, if_pos htc]
  simp [hbin]

theorem movePlayer_push_blocked (g : Grid) (pos : Position) (dir : Direction)
    (hin : isOutOfBounds g (stepPos pos dir).x (stepPos pos dir).y = false)
    (htc : cellAt g (stepPos pos dir).x (stepPos pos dir).y = CellType.Box ∨
      cellAt g (stepPos pos dir).x (stepPos pos dir).y = CellType.BoxOnTarget)
    (hbin : isOutOfBounds g (boxPos pos dir).x (boxPos pos dir).y = false)
    (hbd : ¬(cellAt g (boxPos pos dir).x (boxPos pos dir).y = CellType.Floor ∨
      cellAt g (boxPos pos dir).x (boxPos pos dir).y = CellType.Target)) :
    movePlayer g pos dir = none := by
  have hne : ¬(cellAt g (stepPos pos dir).x (stepPos pos dir).y = CellType.Floor ∨
      cellAt g (stepPos pos dir).x (stepPos pos dir).y = CellType.Target) := by
    rcases htc with h | h <;> rw [h] <;> decide
  simp only [stepPos, boxPos] at hin htc hbin hbd hne ⊢
  simp only [movePlayer, cloneGrid_eq, hin, hbin, Bool.false_eq_true, if_false]
  rw [if_neg hne, if_pos htc, if_neg hbd]

theorem movePlayer_none_wall (g : Grid) (pos : Position) (dir : Direction)
    (hin : isOutOfBounds g (stepPos pos dir).x (stepPos pos dir).y = false)
    (h1 : ¬(cellAt g (stepPos pos dir).x (stepPos pos dir).y = CellType.Floor ∨
      cellAt g (stepPos pos dir).x (stepPos pos dir).y = CellType.Target))
    (h2 : ¬(cellAt g (stepPos pos dir).x (stepPos pos dir).y = CellType.Box ∨
      cellAt g (stepPos pos dir).x (stepPos pos dir).y = CellType.BoxOnTarget)) :
    movePlayer g pos dir = none := by
  simp only [stepPos] at hin h1 h2 ⊢
  simp only [movePlayer, cloneGrid_eq, hin, Bool.false_eq_true, if_false]
  rw [if_neg h1, if_neg h2]

theorem movePlayer_some_inv (g : Grid) (pos : Position) (dir : Direction)
    (r : MoveResult) (hmv : movePlayer g pos dir = some r) :
    isOutOfBounds g (stepPos pos dir).x (stepPos pos dir).y = false ∧
    ((cellAt g (stepPos pos dir).x (stepPos pos dir).y = CellType.Floor ∨
        cellAt g (stepPos pos dir).x (stepPos pos dir).y = CellType.Target) ∧
      r = finishMove g pos (cellAt g (stepPos pos dir).x (stepPos pos dir).y)
          (stepPos pos dir).x (stepPos pos dir).y false
     ∨
     (cellAt g (stepPos pos dir).x (stepPos pos dir).y = CellType.Box ∨
        cellAt g (stepPos pos dir).x (stepPos pos dir).y = CellType.BoxOnTarget) ∧
      isOutOfBounds g (boxPos pos dir).x (boxPos pos dir).y = false ∧
      (cellAt g (boxPos pos dir).x (boxPos pos dir).y = CellType.Floor ∨
        cellAt g (boxPos pos dir).x (boxPos pos dir).y = CellType.Target) ∧
      r = finishMove
          (setCell g (boxPos pos dir).x.toNat (boxPos pos dir).y.toNat
            (if cellAt g (boxPos pos dir).x (boxPos pos dir).y = CellType.Target
              then CellType.BoxOnTarget else CellType.Box))
          pos (cellAt g (stepPos pos dir).x (stepPos pos dir).y)
          (stepPos pos dir).x (stepPos pos dir).y true) := by
  simp only [stepPos, boxPos]
  simp only [movePlayer, cloneGrid_eq] at hmv
  split at hmv
  · cases hmv
  · rename_i hin
    refine ⟨by simpa using hin, ?_⟩
    split at hmv
    · rename_i htc
      left
      exact ⟨htc, (Option.some_inj.mp hmv).symm⟩
    · rename_i hntc
      split at hmv
      · rename_i htc
        split at hmv
        · cases hmv
        · rename_i hbin
          split at hmv
          · rename_i hbd
            right
            exact ⟨htc, by simpa using hbin, hbd, (Option.some_inj.mp hmv).symm⟩
          · cases hmv
      · cases hmv

theorem rect_row_len (g : Grid) (hr : Rect g) {y : Nat} (hy : y < g.length) :
    (g.getD y []).length = (g.getD 0 []).length := by
  have hmem : g.getD y [] ∈ g := by
    rw [List.getD_eq_getElem g [] hy]
    exact List.getElem_mem hy
  exact hr _ hmem

theorem finishMove_effects (g : Grid) (pos : Position) (tc : Cell)
    (nx ny : Int) (p : Bool)
    (hpyl : pos.y.toNat < g.length)
    (hpxl : pos.x.toNat < (g.getD pos.y.toNat []).length)
    (hnyl : ny.toNat < g.length)
    (hnxl : nx.toNat < (g.getD ny.toNat []).length)
    (hne : pos.x.toNat ≠ nx.toNat ∨ pos.y.toNat ≠ ny.toNat) :
    (finishMove g pos tc nx ny p).playerPos = ⟨nx, ny⟩ ∧
    (finishMove g pos tc nx ny p).moved = true ∧
    (finishMove g pos tc nx ny p).pushed = p ∧
    cellAtN (finishMove g pos tc nx ny p).grid pos.x.toNat pos.y.toNat =
      (if cellAt g pos.x pos.y = CellType.PlayerOnTarget then CellType.Target
        else CellType.Floor) ∧
    cellAtN (finishMove g pos tc nx ny p).grid nx.toNat ny.toNat =
      (if tc = CellType.Target ∨ tc = CellType.BoxOnTarget ∨
          tc = CellType.PlayerOnTarget
        then CellType.PlayerOnTarget else CellType.Player) ∧
    (∀ x y : Nat, (x ≠ pos.x.toNat ∨ y ≠ pos.y.toNat) →
      (x ≠ nx.toNat ∨ y ≠ ny.toNat) →
      cellAtN (finishMove g pos tc nx ny p).grid x y = cellAtN g x y) := by
  refine ⟨rfl, rfl, rfl, ?_, ?_, ?_⟩
  · show cellAtN (setCell (setCell g _ _ _) _ _ _) _ _ = _
    rw [cellAtN_setCell_ne _ _ _ _ _ _ hne,
      cellAtN_setCell_self _ _ _ _ hpyl hpxl]
  · show cellAtN (setCell (setCell g _ _ _) _ _ _) _ _ = _
    rw [cellAtN_setCell_self]
    · rwa [setCell_length]
    · rwa [row_length_setCell]
  · intro x y hp hn
    show cellAtN (setCell (setCell g _ _ _) _ _ _) x y = _
    rw [cellAtN_setCell_ne _ _ _ _ _ _ hn, cellAtN_setCell_ne _ _ _ _ _ _ hp]

theorem offset_shape (dir : Direction) :
    ((getOffset dir).1 = 0 ∧ ((getOffset dir).2 = 1 ∨ (getOffset dir).2 = -1)) ∨
      ((getOffset dir).2 = 0 ∧ ((getOffset dir).1 = 1 ∨ (getOffset dir).1 = -1)) := by
  cases dir <;> simp [getOffset]

/-- C3: on every accepted move the old player cell is cleared to Target
(when it was PlayerOnTarget) or Floor, the entered cell becomes
PlayerOnTarget exactly when the cell stepped onto carried target-ness,
the returned position is the old position plus the direction's unit
offset, `moved` is true, and the offsets are UP=(0,-1), DOWN=(0,1),
LEFT=(-1,0), RIGHT=(1,0). -/
theorem movePlayer_success_effects (g : Grid) (pos : Position) (dir : Direction)
    (r : MoveResult) (hrect : Rect g) (hpos : posInBounds g pos)
    (hmv : movePlayer g pos dir = some r) :
    r.playerPos = stepPos pos dir ∧ r.moved = true ∧
    cellAtN r.grid pos.x.toNat pos.y.toNat =
      (if cellAt g pos.x pos.y = CellType.PlayerOnTarget then CellType.Target
        else CellType.Floor) ∧
    cellAtN r.grid (stepPos pos dir).x.toNat (stepPos pos dir).y.toNat =
      (if cellAt g (stepPos pos dir).x (stepPos pos dir).y = CellType.Target ∨
          cellAt g (stepPos pos dir).x (stepPos pos dir).y = CellType.BoxOnTarget ∨
          cellAt g (stepPos pos dir).x (stepPos pos dir).y = CellType.PlayerOnTarget
        then CellType.PlayerOnTarget else CellType.Player) ∧
    getOffset .UP = (0, -1) ∧ getOffset .DOWN = (0, 1) ∧
    getOffset .LEFT = (-1, 0) ∧ getOffset .RIGHT = (1, 0) := by
  obtain ⟨hpx0, hpxw, hpy0, hpyh⟩ := hpos
  obtain ⟨hin, hcase⟩ := movePlayer_some_inv g pos dir r hmv
  rw [isOutOfBounds_eq_false] at hin
  obtain ⟨hnx0, hnxw, hny0, hnyh⟩ := hin
  simp only [stepPos] at hnx0 hnxw hny0 hnyh
  have hoff := offset_shape dir
  have hpyl : pos.y.toNat < g.length := by omega
  have hpxl : pos.x.toNat < (g.getD pos.y.toNat []).length := by
    rw [rect_row_len g hrect hpyl]; omega
  have hnyl : (stepPos pos dir).y.toNat < g.length := by
    simp only [stepPos]; omega
  have hnxl : (stepPos pos dir).x.toNat <
      (g.getD (stepPos pos dir).y.toNat []).length := by
    rw [rect_row_len g hrect hnyl]; simp only [stepPos]; omega
  have hnePN : pos.x.toNat ≠ (stepPos pos dir).x.toNat ∨
      pos.y.toNat ≠ (stepPos pos dir).y.toNat := by
    simp only [stepPos]; omega
  rcases hcase with ⟨htc, hreq⟩ | ⟨htc, hbin, hbd, hreq⟩
  · subst hreq
    obtain ⟨e1, e2, _, e4, e5, _⟩ := finishMove_effects g pos
      (cellAt g (stepPos pos dir).x (stepPos pos dir).y)
      (stepPos pos dir).x (stepPos pos dir).y false hpyl hpxl hnyl hnxl hnePN
    exact ⟨e1, e2, e4, e5, rfl, rfl, rfl, rfl⟩
  · rw [isOutOfBounds_eq_false] at hbin
    obtain ⟨hbx0, hbxw, hby0, hbyh⟩ := hbin
    simp only [boxPos, stepPos] at hbx0 hbxw hby0 hbyh
    have hnePB : pos.x.toNat ≠ (boxPos pos dir).x.toNat ∨
        pos.y.toNat ≠ (boxPos pos dir).y.toNat := by
      simp only [boxPos, stepPos]; omega
    subst hreq
    obtain ⟨e1, e2, _, e4, e5, _⟩ := finishMove_effects
      (setCell g (boxPos pos dir).x.toNat (boxPos pos dir).y.toNat
        (if cellAt g (boxPos pos dir).x (boxPos pos dir).y = CellType.Target
          then CellType.BoxOnTarget else CellType.Box))
      pos (cellAt g (stepPos pos dir).x (stepPos pos dir).y)
      (stepPos pos dir).x (stepPos pos dir).y true
      (by rwa [setCell_length]) (by rwa [row_length_setCell])
      (by rwa [setCell_length]) (by rwa [row_length_setCell]) hnePN
    rw [show cellAt (setCell g (boxPos pos dir).x.toNat (boxPos pos dir).y.toNat
        (if cellAt g (boxPos pos dir).x (boxPos pos dir).y = CellType.Target
          then CellType.BoxOnTarget else CellType.Box)) pos.x pos.y =
        cellAt g pos.x pos.y from
      cellAtN_setCell_ne _ _ _ _ _ _ hnePB] at e4
    exact ⟨e1, e2, e4, e5, rfl, rfl, rfl, rfl⟩

theorem finishMove_grid_eq (g : Grid) (pos : Position) (tc : Cell)
    (nx ny : Int) (p : Bool) :
    (finishMove g pos tc nx ny p).grid =
      setCell
        (setCell g pos.x.toNat pos.y.toNat
          (if cellAt g pos.x pos.y = CellType.PlayerOnTarget then CellType.Target
            else CellType.Floor))
        nx.toNat ny.toNat
        (if tc = CellType.Target ∨ tc = CellType.BoxOnTarget ∨
            tc = CellType.PlayerOnTarget
          then CellType.PlayerOnTarget else CellType.Player) := rfl

/-- C1: an accepted move preserves the grid shape and leaves every cell
other than the player's old cell, the entered cell, and (for a push only)
the box destination cell two offsets away byte-for-byte unchanged; a
rejected move returns `none`, carrying no grid at all, so in this pure
embedding of the cloning source there is no mutated state to speak of. -/
theorem movePlayer_frame (g : Grid) (pos : Position) (dir : Direction)
    (r : MoveResult) (hmv : movePlayer g pos dir = some r) :
    r.grid.length = g.length ∧
    (∀ y : Nat, (r.grid.getD y []).length = (g.getD y []).length) ∧
    (∀ x y : Nat,
      (x ≠ pos.x.toNat ∨ y ≠ pos.y.toNat) →
      (x ≠ (stepPos pos dir).x.toNat ∨ y ≠ (stepPos pos dir).y.toNat) →
      (r.pushed = true → (x ≠ (boxPos pos dir).x.toNat ∨ y ≠ (boxPos pos dir).y.toNat)) →
      cellAtN r.grid x y = cellAtN g x y) := by
  obtain ⟨_, hcase⟩ := movePlayer_some_inv g pos dir r hmv
  rcases hcase with ⟨htc, hreq⟩ | ⟨htc, hbin, hbd, hreq⟩ <;> subst hreq
  · refine ⟨?_, ?_, ?_⟩
    · rw [finishMove_grid_eq, setCell_length, setCell_length]
    · intro y
      rw [finishMove_grid_eq, row_length_setCell, row_length_setCell]
    · intro x y hp hn _
      rw [finishMove_grid_eq, cellAtN_setCell_ne _ _ _ _ _ _ hn,
        cellAtN_setCell_ne _ _ _ _ _ _ hp]
  · refine ⟨?_, ?_, ?_⟩
    · rw [finishMove_grid_eq, setCell_length, setCell_length, setCell_length]
    · intro y
      rw [finishMove_grid_eq, row_length_setCell, row_length_setCell,
        row_length_setCell]
    · intro x y hp hn hb
      rw [finishMove_grid_eq, cellAtN_setCell_ne _ _ _ _ _ _ hn,
        cellAtN_setCell_ne _ _ _ _ _ _ hp,
        cellAtN_setCell_ne _ _ _ _ _ _ (hb rfl)]

/-- C2: when the stepped-onto cell holds a box, the move succeeds with
`pushed = true` exactly when the cell two offsets away is in bounds and
Floor or Target; on success that cell becomes BoxOnTarget if it was
Target and Box if it was Floor, and an out-of-bounds, Wall, Box or
BoxOnTarget box destination makes `movePlayer` return `none`. -/
theorem movePlayer_push_spec (g : Grid) (pos : Position) (dir : Direction)
    (hrect : Rect g)
    (hin : isOutOfBounds g (stepPos pos dir).x (stepPos pos dir).y = false)
    (htc : cellAt g (stepPos pos dir).x (stepPos pos dir).y = CellType.Box ∨
      cellAt g (stepPos pos dir).x (stepPos pos dir).y = CellType.BoxOnTarget) :
    ((∃ r, movePlayer g pos dir = some r ∧ r.pushed = true) ↔
      isOutOfBounds g (boxPos pos dir).x (boxPos pos dir).y = false ∧
        (cellAt g (boxPos pos dir).x (boxPos pos dir).y = CellType.Floor ∨
          cellAt g (boxPos pos dir).x (boxPos pos dir).y = CellType.Target)) ∧
    (∀ r, movePlayer g pos dir = some r →
      cellAtN r.grid (boxPos pos dir).x.toNat (boxPos pos dir).y.toNat =
        (if cellAt g (boxPos pos dir).x (boxPos pos dir).y = CellType.Target
          then CellType.BoxOnTarget else CellType.Box)) ∧
    (isOutOfBounds g (boxPos pos dir).x (boxPos pos dir).y = true →
      movePlayer g pos dir = none) ∧
    (isOutOfBounds g (boxPos pos dir).x (boxPos pos dir).y = false →
      (cellAt g (boxPos pos dir).x (boxPos pos dir).y = CellType.Wall ∨
        cellAt g (boxPos pos dir).x (boxPos pos dir).y = CellType.Box ∨
        cellAt g (boxPos pos dir).x (boxPos pos dir).y = CellType.BoxOnTarget) →
      movePlayer g pos dir = none) := by
  have hplain : ¬(cellAt g (stepPos pos dir).x (stepPos pos dir).y = CellType.Floor ∨
      cellAt g (stepPos pos dir).x (stepPos pos dir).y = CellType.Target) := by
    rcases htc with h | h <;> rw [h] <;> decide
  refine ⟨⟨?_, ?_⟩, ?_, ?_, ?_⟩
  · rintro ⟨r, hmv, hpu⟩
    obtain ⟨_, hcase⟩ := movePlayer_some_inv g pos dir r hmv
    rcases hcase with ⟨htcp, _⟩ | ⟨_, hbin, hbd, _⟩
    · exact absurd htcp hplain
    · exact ⟨hbin, hbd⟩
  · rintro ⟨hbin, hbd⟩
    exact ⟨_, movePlayer_push_ok g pos dir hin htc hbin hbd, rfl⟩
  · intro r hmv
    obtain ⟨_, hcase⟩ := movePlayer_some_inv g pos dir r hmv
    rcases hcase with ⟨htcp, _⟩ | ⟨_, hbin, hbd, hreq⟩
    · exact absurd htcp hplain
    · have hoff := offset_shape dir
      have hinO := hin
      rw [isOutOfBounds_eq_false] at hinO
      obtain ⟨hnx0, hnxw, hny0, hnyh⟩ := hinO
      simp only [stepPos] at hnx0 hnxw hny0 hnyh
      rw [isOutOfBounds_eq_false] at hbin
      obtain ⟨hbx0, hbxw, hby0, hbyh⟩ := hbin
      simp only [boxPos, stepPos] at hbx0 hbxw hby0 hbyh
      have hBN : (boxPos pos dir).x.toNat ≠ (stepPos pos dir).x.toNat ∨
          (boxPos pos dir).y.toNat ≠ (stepPos pos dir).y.toNat := by
        simp only [boxPos, stepPos]; omega
      have hBP : (boxPos pos dir).x.toNat ≠ pos.x.toNat ∨
          (boxPos pos dir).y.toNat ≠ pos.y.toNat := by
        simp only [boxPos, stepPos]; omega
      have hByl : (boxPos pos dir).y.toNat < g.length := by
        simp only [boxPos, stepPos]; omega
      have hBxl : (boxPos pos dir).x.toNat <
          (g.getD (boxPos pos dir).y.toNat []).length := by
        rw [rect_row_len g hrect hByl]; simp only [boxPos, stepPos]; omega
      subst hreq
      rw [finishMove_grid_eq, cellAtN_setCell_ne _ _ _ _ _ _ hBN,
        cellAtN_setCell_ne _ _ _ _ _ _ hBP,
        cellAtN_setCell_self _ _ _ _ hByl hBxl]
  · intro hb
    exact movePlayer_push_oob g pos dir hin htc hb
  · intro hbin hbd
    refine movePlayer_push_blocked g pos dir hin htc hbin ?_
    rcases hbd with h | h | h <;> rw [h] <;> decide

/-- The spec's concrete scenario level `["#####","#@$.#","#####"]`. -/
def demoGrid : Grid :=
  [['#', '#', '#', '#', '#'],
   ['#', '@', '$', '.', '#'],
   ['#', '#', '#', '#', '#']]

/-- The state `movePlayer` returns for a RIGHT push on `demoGrid`. -/
def demoResult : MoveResult :=
  ⟨[['#', '#', '#', '#', '#'],
    ['#', ' ', '@', '*', '#'],
    ['#', '#', '#', '#', '#']], ⟨2, 1⟩, true, true⟩

theorem movePlayer_frame_witness :
    movePlayer demoGrid ⟨1, 1⟩ .RIGHT = some demoResult ∧
      cellAtN demoResult.grid 0 0 = cellAtN demoGrid 0 0 :=
  ⟨by decide,
    (movePlayer_frame demoGrid ⟨1, 1⟩ .RIGHT demoResult (by decide)).2.2 0 0
      (by decide) (by decide) (fun _ => by decide)⟩

theorem movePlayer_push_spec_witness :
    cellAtN demoResult.grid (boxPos ⟨1, 1⟩ .RIGHT).x.toNat
        (boxPos ⟨1, 1⟩ .RIGHT).y.toNat =
      (if cellAt demoGrid (boxPos ⟨1, 1⟩ .RIGHT).x (boxPos ⟨1, 1⟩ .RIGHT).y =
          CellType.Target
        then CellType.BoxOnTarget else CellType.Box) :=
  (movePlayer_push_spec demoGrid ⟨1, 1⟩ .RIGHT (by decide) (by decide)
    (by decide)).2.1 demoResult (by decide)

theorem movePlayer_success_effects_witness :
    demoResult.playerPos = stepPos ⟨1, 1⟩ .RIGHT ∧
      cellAtN demoResult.grid 1 1 = CellType.Floor :=
  ⟨(movePlayer_success_effects demoGrid ⟨1, 1⟩ .RIGHT demoResult (by decide)
      (by decide) (by decide)).1,
    by
      have h := (movePlayer_success_effects demoGrid ⟨1, 1⟩ .RIGHT demoResult
        (by decide) (by decide) (by decide)).2.2.1
      simpa using h⟩

/-- C10: `checkWin` is true exactly when no cell of the grid is a loose
Box; it is a pure scan returning a Bool, so the grid is left untouched. -/
theorem checkWin_iff_no_box (g : Grid) :
    checkWin g = true ↔ ∀ row ∈ g, ∀ c ∈ row, c ≠ CellType.Box := by
  simp [checkWin]

/-- C8: serializing a grid to row strings and parsing the result yields
the original grid back exactly. -/
theorem parseLevel_gridToStrings_roundtrip (g : Grid) :
    (parseLevel (gridToStrings g)).grid = g := by
  simp only [parseLevel, gridToStrings, List.map_map]
  rw [show (String.data ∘ fun row : List Char => String.mk row) = id from rfl,
    List.map_id]

theorem scanRow_absorb (y : Nat) (row : List Cell) (n : Nat) (acc : Position)
    (h : ∀ c ∈ row, isPlayerChar c = false) :
    (row.enumFrom n).foldl
      (fun acc2 xc => if isPlayerChar xc.2 then (⟨xc.1, y⟩ : Position) else acc2)
      acc = acc := by
  induction row generalizing n acc with
  | nil => rfl
  | cons c cs ih =>
    have hc : isPlayerChar c = false := h c (List.mem_cons_self c cs)
    have hrest : ∀ d ∈ cs, isPlayerChar d = false :=
      fun d hd => h d (List.mem_cons_of_mem c hd)
    rw [show (c :: cs).enumFrom n = (n, c) :: cs.enumFrom (n + 1) from rfl,
      List.foldl_cons]
    simp only [hc, Bool.false_eq_true, if_false]
    exact ih (n + 1) acc hrest

theorem scanRowForPlayer_absorb (y : Nat) (row : List Cell) (acc : Position)
    (h : ∀ c ∈ row, isPlayerChar c = false) :
    scanRowForPlayer y row acc = acc :=
  scanRow_absorb y row 0 acc h

theorem scanRow_unique (y : Nat) (row : List Cell) (x n : Nat) (acc : Position)
    (hx : x < row.length)
    (hp : isPlayerChar (row.getD x '?') = true)
    (hu : ∀ i, i < row.length → isPlayerChar (row.getD i '?') = true → i = x) :
    (row.enumFrom n).foldl
      (fun acc2 xc => if isPlayerChar xc.2 then (⟨xc.1, y⟩ : Position) else acc2)
      acc = ⟨(n + x : Nat), y⟩ := by
  induction row generalizing x n acc with
  | nil => simp at hx
  | cons c cs ih =>
    rw [show (c :: cs).enumFrom n = (n, c) :: cs.enumFrom (n + 1) from rfl,
      List.foldl_cons]
    cases x with
    | zero =>
      have hc : isPlayerChar c = true := by simpa using hp
      simp only [hc, if_true]
      have hrest : ∀ d ∈ cs, isPlayerChar d = false := by
        intro d hd
        by_contra hcon
        rw [Bool.not_eq_false] at hcon
        obtain ⟨i, hi, hie⟩ := List.getElem_of_mem hd
        have hidx : i + 1 = 0 := by
          refine hu (i + 1) (by simp; omega) ?_
          have : (c :: cs).getD (i + 1) '?' = d := by
            simp [List.getD, List.getElem?_eq_getElem hi, hie]
          rw [this]
          exact hcon
        omega
      rw [scanRow_absorb y cs (n + 1) _ hrest]
      simp
    | succ k =>
      have hc : isPlayerChar c = false := by
        cases hq : isPlayerChar c
        · rfl
        · have h0 : 0 = k + 1 := hu 0 (by simp) (by simpa using hq)
          omega
      simp only [hc, Bool.false_eq_true, if_false]
      have hx' : k < cs.length := by simpa using hx
      have hp' : isPlayerChar (cs.getD k '?') = true := by simpa using hp
      have hu' : ∀ i, i < cs.length → isPlayerChar (cs.getD i '?') = true → i = k := by
        intro i hi hpi
        have := hu (i + 1) (by simp; omega) (by simpa using hpi)
        omega
      rw [ih k (n + 1) acc hx' hp' hu']
      have : (n + 1) + k = n + (k + 1) := by omega
      rw [this]

theorem cellAtN_cons_zero (r : List Cell) (rs : Grid) (x : Nat) :
    cellAtN (r :: rs) x 0 = r.getD x '?' := by
  simp [cellAtN, List.getD]

theorem cellAtN_cons_succ (r : List Cell) (rs : Grid) (x y : Nat) :
    cellAtN (r :: rs) x (y + 1) = cellAtN rs x y := by
  simp [cellAtN, List.getD]

theorem parseFold_absorb (rows : Grid) (m : Nat) (acc : Position)
    (h : ∀ row ∈ rows, ∀ c ∈ row, isPlayerChar c = false) :
    (rows.enumFrom m).foldl (fun acc2 yr => scanRowForPlayer yr.1 yr.2 acc2) acc
      = acc := by
  induction rows generalizing m acc with
  | nil => rfl
  | cons r rs ih =>
    rw [show (r :: rs).enumFrom m = (m, r) :: rs.enumFrom (m + 1) from rfl,
      List.foldl_cons]
    show (rs.enumFrom (m + 1)).foldl _ (scanRowForPlayer m r acc) = acc
    rw [scanRowForPlayer_absorb m r acc (h r (List.mem_cons_self r rs))]
    exact ih (m + 1) acc (fun row hrow => h row (List.mem_cons_of_mem r hrow))

theorem parseFold_unique (rows : Grid) (x y m : Nat) (acc : Position)
    (hy : y < rows.length)
    (hx : x < (rows.getD y []).length)
    (hp : isPlayerChar (cellAtN rows x y) = true)
    (hu : ∀ y' x', y' < rows.length → x' < (rows.getD y' []).length →
      isPlayerChar (cellAtN rows x' y') = true → x' = x ∧ y' = y) :
    (rows.enumFrom m).foldl (fun acc2 yr => scanRowForPlayer yr.1 yr.2 acc2) acc
      = ⟨(x : Nat), (m + y : Nat)⟩ := by
  induction rows generalizing y m acc with
  | nil => simp at hy
  | cons r rs ih =>
    rw [show (r :: rs).enumFrom m = (m, r) :: rs.enumFrom (m + 1) from rfl,
      List.foldl_cons]
    show (rs.enumFrom (m + 1)).foldl _ (scanRowForPlayer m r acc) = _
    cases y with
    | zero =>
      have hx0 : x < r.length := by
        have : (r :: rs).getD 0 [] = r := by simp [List.getD]
        rwa [this] at hx
      have hp0 : isPlayerChar (r.getD x '?') = true := by
        rwa [cellAtN_cons_zero] at hp
      have hu0 : ∀ i, i < r.length → isPlayerChar (r.getD i '?') = true → i = x := by
        intro i hi hpi
        have hgd : (r :: rs).getD 0 [] = r := by simp [List.getD]
        exact (hu 0 i (by simp) (by rwa [hgd]) (by rwa [cellAtN_cons_zero])).1
      have hs : scanRowForPlayer m r acc = ⟨(0 + x : Nat), (m : Nat)⟩ :=
        scanRow_unique m r x 0 acc hx0 hp0 hu0
      rw [hs]
      have hnone : ∀ row ∈ rs, ∀ c ∈ row, isPlayerChar c = false := by
        intro row hrow c hc
        by_contra hcon
        rw [Bool.not_eq_false] at hcon
        obtain ⟨j, hj, hje⟩ := List.getElem_of_mem hrow
        obtain ⟨i, hi, hie⟩ := List.getElem_of_mem hc
        have hgd : (r :: rs).getD (j + 1) [] = row := by
          simp [List.getD, List.getElem?_eq_getElem hj, hje]
        have hcel : cellAtN (r :: rs) i (j + 1) = c := by
          rw [cellAtN_cons_succ]
          simp [cellAtN, List.getD, List.getElem?_eq_getElem hj, hje,
            List.getElem?_eq_getElem hi, hie]
        have := (hu (j + 1) i (by simp; omega) (by rw [hgd]; exact hi)
          (by rw [hcel]; exact hcon)).2
        omega
      rw [parseFold_absorb rs (m + 1) _ hnone]
      simp
    | succ k =>
      have hr : ∀ c ∈ r, isPlayerChar c = false := by
        intro c hc
        by_contra hcon
        rw [Bool.not_eq_false] at hcon
        obtain ⟨i, hi, hie⟩ := List.getElem_of_mem hc
        have hgd : (r :: rs).getD 0 [] = r := by simp [List.getD]
        have hcel : cellAtN (r :: rs) i 0 = c := by
          rw [cellAtN_cons_zero]
          simp [List.getD, List.getElem?_eq_getElem hi, hie]
        have := (hu 0 i (by simp) (by rw [hgd]; exact hi)
          (by rw [hcel]; exact hcon)).2
        omega
      rw [scanRowForPlayer_absorb m r acc hr]
      have hy' : k < rs.length := by simpa using hy
      have hx' : x < (rs.getD k []).length := by
        have : (r :: rs).getD (k + 1) [] = rs.getD k [] := by simp [List.getD]
        rwa [this] at hx
      have hp' : isPlayerChar (cellAtN rs x k) = true := by
        rwa [cellAtN_cons_succ] at hp
      have hu' : ∀ y' x', y' < rs.length → x' < (rs.getD y' []).length →
          isPlayerChar (cellAtN rs x' y') = true → x' = x ∧ y' = k := by
        intro y' x' hy2 hx2 hp2
        have hgd : (r :: rs).getD (y' + 1) [] = rs.getD y' [] := by
          simp [List.getD]
        have := hu (y' + 1) x' (by simp; omega) (by rwa [hgd])
          (by rwa [cellAtN_cons_succ])
        exact ⟨this.1, by omega⟩
      rw [ih k (m + 1) acc hy' hx' hp' hu']
      have : (m + 1) + k = m + (k + 1) := by omega
      rw [this]

/-- C9: on rows with no player character, `parseLevel` silently returns
the grid of single-character cells with the default position (0,0); when
exactly one player character is present, the returned position is that
character's (column, row). -/
theorem parseLevel_player_positions (rows : List String) :
    ((∀ s ∈ rows, ∀ c ∈ s.data, isPlayerChar c = false) →
      parseLevel rows = ⟨rows.map String.data, ⟨0, 0⟩⟩) ∧
    (∀ x y : Nat,
      y < (rows.map String.data).length →
      x < ((rows.map String.data).getD y []).length →
      isPlayerChar (cellAtN (rows.map String.data) x y) = true →
      (∀ y', y' < (rows.map String.data).length →
        ∀ x', x' < ((rows.map String.data).getD y' []).length →
        isPlayerChar (cellAtN (rows.map String.data) x' y') = true →
        x' = x ∧ y' = y) →
      parseLevel rows = ⟨rows.map String.data, ⟨(x : Nat), (y : Nat)⟩⟩) := by
  constructor
  · intro h
    simp only [parseLevel]
    congr 1
    refine parseFold_absorb (rows.map String.data) 0 ⟨0, 0⟩ ?_
    intro row hrow c hc
    obtain ⟨s, hs, rfl⟩ := List.mem_map.mp hrow
    exact h s hs c hc
  · intro x y hy hx hp hu
    simp only [parseLevel]
    congr 1
    have hu' : ∀ y' x', y' < (rows.map String.data).length →
        x' < ((rows.map String.data).getD y' []).length →
        isPlayerChar (cellAtN (rows.map String.data) x' y') = true →
        x' = x ∧ y' = y :=
      fun y' x' h1 h2 h3 => hu y' h1 x' h2 h3
    have := parseFold_unique (rows.map String.data) x y 0 ⟨0, 0⟩ hy hx hp hu'
    simpa using this

theorem parseLevel_player_positions_witness :
    parseLevel ["##"] = ⟨["##"].map String.data, ⟨0, 0⟩⟩ ∧
    parseLevel ["#@"] = ⟨["#@"].map String.data, ⟨(1 : Nat), (0 : Nat)⟩⟩ :=
  ⟨(parseLevel_player_positions ["##"]).1 (by decide),
    (parseLevel_player_positions ["#@"]).2 1 0 (by decide) (by decide)
      (by decide) (by decide)⟩

/-- C4 counterexample input: a one-row level whose single RIGHT move
completes the level. -/
def winState : GameState := ⟨[['@', '$', '.']], ⟨0, 0⟩, 0, false⟩

/-- C4 counterexample: after the winning push, undo is blocked by the
`levelCompleted` guard of `handleUndo`, so the pushed snapshot is not
restored even though it sits on the history. -/
theorem undo_after_winning_push_counterexample :
    handleMove winState [] .RIGHT =
      (⟨[[' ', '@', '*']], ⟨1, 0⟩, 1, true⟩, [winState]) ∧
    handleUndo (⟨[[' ', '@', '*']], ⟨1, 0⟩, 1, true⟩ : GameState) [winState] =
      (⟨[[' ', '@', '*']], ⟨1, 0⟩, 1, true⟩, [winState]) ∧
    (⟨[[' ', '@', '*']], ⟨1, 0⟩, 1, true⟩ : GameState) ≠ winState := by
  refine ⟨by decide, by decide, by decide⟩

/-- C4 (amended): provided the state current at undo time is not a
completed level, undoing after a push restores exactly the pushed
snapshot, moveCount and completed flag included; rejected moves push
nothing, accepted moves push exactly the prior snapshot, and undo on an
empty history is a no-op. -/
theorem undo_restores_pushed_snapshot (s st : GameState) (h : List GameState)
    (hst : st.levelCompleted = false) :
    (handleUndo st (pushHistory h s)).1 = s ∧
    (∀ dir, movePlayer s.grid s.playerPos dir = none →
      handleMove s h dir = (s, h)) ∧
    (∀ dir r, s.levelCompleted = false →
      movePlayer s.grid s.playerPos dir = some r →
      (handleMove s h dir).2 = pushHistory h s) ∧
    handleUndo st [] = (st, []) := by
  refine ⟨?_, ?_, ?_, by simp [handleUndo]⟩
  · unfold pushHistory handleUndo
    by_cases hover : (h ++ [s]).length > MAX_HISTORY
    · rw [if_pos hover]
      cases h with
      | nil => simp [MAX_HISTORY] at hover
      | cons a as =>
        have hlen : (as ++ [s]).length ≠ 0 := by simp
        simp [hst, hlen]
    · rw [if_neg hover]
      have hlen : (h ++ [s]).length ≠ 0 := by simp
      simp [hst, hlen]
  · intro dir hmv
    simp [handleMove, hmv]
  · intro dir r hs hmv
    simp [handleMove, hs, hmv]

theorem undo_restores_pushed_snapshot_witness :
    (handleUndo ⟨[], ⟨0, 0⟩, 3, false⟩
        (pushHistory [] ⟨[['@']], ⟨0, 0⟩, 7, false⟩)).1 =
      ⟨[['@']], ⟨0, 0⟩, 7, false⟩ :=
  (undo_restores_pushed_snapshot ⟨[['@']], ⟨0, 0⟩, 7, false⟩
    ⟨[], ⟨0, 0⟩, 3, false⟩ [] (by decide)).1

theorem pushHistory_le (h : List GameState) (s : GameState)
    (hle : h.length ≤ MAX_HISTORY) :
    (pushHistory h s).length ≤ MAX_HISTORY := by
  unfold pushHistory
  by_cases hover : (h ++ [s]).length > MAX_HISTORY
  · rw [if_pos hover]
    simp at hover ⊢
    omega
  · rw [if_neg hover]
    simp at hover ⊢
    omega

theorem foldl_pushHistory_le (l : List GameState) (acc : List GameState)
    (hacc : acc.length ≤ MAX_HISTORY) :
    (l.foldl pushHistory acc).length ≤ MAX_HISTORY := by
  induction l generalizing acc with
  | nil => exact hacc
  | cons a as ih => exact ih (pushHistory acc a) (pushHistory_le acc a hacc)

/-- C5: starting from the empty history, any sequence of pushes keeps the
history at no more than `MAX_HISTORY = 100` entries; a bounded push keeps
the bound, and a push onto a full history drops exactly the oldest entry,
keeping the most recent ones in order with the new snapshot appended. -/
theorem history_capacity (l : List GameState) (h : List GameState)
    (s : GameState) :
    (l.foldl pushHistory []).length ≤ MAX_HISTORY ∧
    (h.length ≤ MAX_HISTORY → (pushHistory h s).length ≤ MAX_HISTORY) ∧
    (h.length = MAX_HISTORY →
      pushHistory h s = h.tail ++ [s] ∧ (pushHistory h s).length = MAX_HISTORY) := by
  refine ⟨foldl_pushHistory_le l [] (by simp), fun hle => pushHistory_le h s hle, ?_⟩
  intro hfull
  have hover : (h ++ [s]).length > MAX_HISTORY := by simp; omega
  constructor
  · unfold pushHistory
    rw [if_pos hover]
    cases h with
    | nil => simp [MAX_HISTORY] at hfull
    | cons a as => simp
  · unfold pushHistory
    rw [if_pos hover]
    simp at hfull ⊢
    omega

theorem history_capacity_witness :
    pushHistory (List.replicate 100 (⟨[], ⟨0, 0⟩, 0, false⟩ : GameState))
        ⟨[], ⟨0, 0⟩, 9, false⟩ =
      (List.replicate 100 (⟨[], ⟨0, 0⟩, 0, false⟩ : GameState)).tail ++
        [⟨[], ⟨0, 0⟩, 9, false⟩] :=
  ((history_capacity [] (List.replicate 100 ⟨[], ⟨0, 0⟩, 0, false⟩)
    ⟨[], ⟨0, 0⟩, 9, false⟩).2.2 (by simp [MAX_HISTORY])).1

/-- The `saveLevel` box test `cell === Box || cell === BoxOnTarget`. -/
def isBoxCell (c : Cell) : Bool :=
  c == CellType.Box || c == CellType.BoxOnTarget

/-- The `saveLevel` target test
`cell === Target || cell === BoxOnTarget || cell === PlayerOnTarget`. -/
def isTargetCell (c : Cell) : Bool :=
  c == CellType.Target || c == CellType.BoxOnTarget || c == CellType.PlayerOnTarget

/-- Number of box-bearing cells of a grid. -/
def boxCellCount (g : Grid) : Nat :=
  (g.map (fun row => row.countP isBoxCell)).sum

/-- Number of target-bearing cells of a grid. -/
def targetCellCount (g : Grid) : Nat :=
  (g.map (fun row => row.countP isTargetCell)).sum

theorem tallyCell_eq (acc : EditorCounts) (cell : Cell) :
    tallyCell acc cell =
      ⟨acc.playerCount + (if isPlayerChar cell then 1 else 0),
        acc.boxCount + (if isBoxCell cell then 1 else 0),
        acc.targetCount + (if isTargetCell cell then 1 else 0)⟩ := by
  unfold tallyCell isPlayerChar isBoxCell isTargetCell
  split_ifs <;> rfl

theorem foldl_tallyCell_row (row : List Cell) (acc : EditorCounts) :
    row.foldl tallyCell acc =
      ⟨acc.playerCount + row.countP isPlayerChar,
        acc.boxCount + row.countP isBoxCell,
        acc.targetCount + row.countP isTargetCell⟩ := by
  induction row generalizing acc with
  | nil => simp
  | cons c cs ih =>
    rw [List.foldl_cons, ih, tallyCell_eq]
    simp only [List.countP_cons, EditorCounts.mk.injEq]
    refine ⟨by omega, by omega, by omega⟩

theorem countEditorCells_eq (g : Grid) :
    countEditorCells g =
      ⟨countPlayerCells g, boxCellCount g, targetCellCount g⟩ := by
  unfold countEditorCells countPlayerCells boxCellCount targetCellCount
  have main : ∀ (rows : Grid) (acc : EditorCounts),
      rows.foldl (fun a row => row.foldl tallyCell a) acc =
        ⟨acc.playerCount + (rows.map (fun row => row.countP isPlayerChar)).sum,
          acc.boxCount + (rows.map (fun row => row.countP isBoxCell)).sum,
          acc.targetCount + (rows.map (fun row => row.countP isTargetCell)).sum⟩ := by
    intro rows
    induction rows with
    | nil => intro acc; simp
    | cons r rs ih =>
      intro acc
      rw [List.foldl_cons, ih, foldl_tallyCell_row]
      simp only [List.map_cons, List.sum_cons, EditorCounts.mk.injEq]
      refine ⟨by omega, by omega, by omega⟩
  rw [main]
  simp

/-- C6: `saveLevel` reports the exactly-one-player error whenever the
player count differs from 1, then the at-least-one-box error when there
is no box, then the mismatch error carrying both counts when boxes and
targets disagree, and saves the serialized rows exactly when all three
checks pass.  Failure returns only an error value: nothing is saved. -/
theorem saveLevel_spec (g : Grid) :
    (countPlayerCells g ≠ 1 →
      saveLevel g = .error "Level must have exactly one player (@).") ∧
    (countPlayerCells g = 1 → boxCellCount g = 0 →
      saveLevel g = .error "Level must have at least one box ($).") ∧
    (countPlayerCells g = 1 → boxCellCount g ≠ 0 →
      boxCellCount g ≠ targetCellCount g →
      saveLevel g = .error ("Mismatch: " ++ toString (boxCellCount g) ++
        " boxes and " ++ toString (targetCellCount g) ++ " targets.")) ∧
    (saveLevel g = .saved (gridToStrings g) ↔
      countPlayerCells g = 1 ∧ boxCellCount g ≠ 0 ∧
        boxCellCount g = targetCellCount g) := by
  have hc := countEditorCells_eq g
  refine ⟨?_, ?_, ?_, ?_⟩
  · intro h1
    simp [saveLevel, hc, h1]
  · intro h1 h2
    simp [saveLevel, hc, h1, h2]
  · intro h1 h2 h3
    simp [saveLevel, hc, h1, h2, h3]
  · constructor
    · intro hs
      by_cases h1 : countPlayerCells g = 1
      · by_cases h2 : boxCellCount g = 0
        · simp [saveLevel, hc, h1, h2] at hs
        · by_cases h3 : boxCellCount g = targetCellCount g
          · exact ⟨h1, h2, h3⟩
          · simp [saveLevel, hc, h1, h2, h3] at hs
      · simp [saveLevel, hc, h1] at hs
    · rintro ⟨h1, h2, h3⟩
      simp [saveLevel, hc, h1, h2, h3]
      omega

theorem saveLevel_spec_witness :
    saveLevel [['@', '$', '$', '.']] =
      .error "Mismatch: 2 boxes and 1 targets." := by
  have h := (saveLevel_spec [['@', '$', '$', '.']]).2.2.1
    (by decide) (by decide) (by decide)
  rw [h]
  rfl

theorem editorNewCell_player_cases (cur tool : Cell)
    (h : isPlayerChar (editorNewCell cur tool) = true) :
    (tool == CellType.Player || editorNewCell cur tool == CellType.PlayerOnTarget)
      = true := by
  unfold editorNewCell at h ⊢
  split_ifs at h ⊢ <;>
    first
      | exact absurd h (by decide)
      | exact h
      | simp

theorem cellAtN_clearPlayers (g : Grid) (x y : Nat) :
    cellAtN (clearPlayers g) x y = clearPlayerCell (cellAtN g x y) := by
  unfold cellAtN clearPlayers
  simp only [List.getD, List.get?_eq_getElem?, List.getElem?_map]
  rcases Option.eq_none_or_eq_some (g[y]?) with hgy | ⟨row, hgy⟩
  · rw [hgy]
    simp
    decide
  · rw [hgy]
    simp only [Option.map_some', Option.getD_some]
    rcases Option.eq_none_or_eq_some (row[x]?) with hrx | ⟨c, hrx⟩
    · rw [List.getElem?_map, hrx]
      simp
      decide
    · rw [List.getElem?_map, hrx]
      simp

theorem clearPlayers_length (g : Grid) : (clearPlayers g).length = g.length := by
  simp [clearPlayers]

theorem clearPlayers_row_length (g : Grid) (y : Nat) :
    ((clearPlayers g).getD y []).length = (g.getD y []).length := by
  unfold clearPlayers
  by_cases hy : y < g.length
  · rw [List.getD_eq_getElem _ _ (by simpa using hy),
      List.getD_eq_getElem _ _ hy, List.getElem_map, List.length_map]
  · rw [List.getD_eq_default _ _ (by simpa using hy),
      List.getD_eq_default _ _ (by omega)]

theorem countPlayerCells_clearPlayers (g : Grid) :
    countPlayerCells (clearPlayers g) = 0 := by
  unfold countPlayerCells clearPlayers
  rw [List.map_map]
  refine List.sum_eq_zero ?_
  intro n hn
  obtain ⟨row, hrow, rfl⟩ := List.mem_map.mp hn
  simp only [Function.comp, List.countP_map]
  rw [List.countP_eq_zero]
  intro a _
  unfold Function.comp clearPlayerCell isPlayerChar
  split_ifs with h1 h2
  · decide
  · decide
  · simp only [Bool.or_eq_true]
    rintro (hc | hc)
    · exact h1 hc
    · exact h2 hc

theorem countP_set_of_zero (p : Cell → Bool) (row : List Cell) (x : Nat)
    (c : Cell) (hx : x < row.length) (h0 : row.countP p = 0) :
    (row.set x c).countP p = if p c then 1 else 0 := by
  induction row generalizing x with
  | nil => simp at hx
  | cons d ds ih =>
    rw [List.countP_cons] at h0
    have hds : ds.countP p = 0 := by omega
    have hd : (if p d then 1 else 0) = 0 := by omega
    cases x with
    | zero =>
      rw [show (d :: ds).set 0 c = c :: ds from rfl, List.countP_cons, hds]
      simp
    | succ k =>
      rw [show (d :: ds).set (k + 1) c = d :: ds.set k c from rfl,
        List.countP_cons, ih k (by simpa using hx) hds, hd]
      omega

theorem sum_set_of_zero (l : List Nat) (i : Nat) (v : Nat)
    (hi : i < l.length) (h0 : l.sum = 0) :
    (l.set i v).sum = v := by
  induction l generalizing i with
  | nil => simp at hi
  | cons a as ih =>
    rw [List.sum_cons] at h0
    have ha : a = 0 := by omega
    have has : as.sum = 0 := by omega
    cases i with
    | zero =>
      rw [show (a :: as).set 0 v = v :: as from rfl, List.sum_cons, has]
      omega
    | succ k =>
      rw [show (a :: as).set (k + 1) v = a :: as.set k v from rfl,
        List.sum_cons, ih k (by simpa using hi) has, ha]
      omega

theorem countPlayerCells_setCell_zero (g : Grid) (x y : Nat) (c : Cell)
    (hy : y < g.length) (hx : x < (g.getD y []).length)
    (h0 : countPlayerCells g = 0) :
    countPlayerCells (setCell g x y c) = if isPlayerChar c then 1 else 0 := by
  unfold countPlayerCells setCell at *
  rw [List.map_set]
  rw [sum_set_of_zero _ y _ (by simpa using hy) h0]
  exact countP_set_of_zero isPlayerChar _ x c hx
    (by
      have hmem : (g.getD y []).countP isPlayerChar ∈
          g.map (fun row => row.countP isPlayerChar) := by
        rw [List.getD_eq_getElem g [] hy]
        exact List.mem_map_of_mem _ (List.getElem_mem hy)
      have := List.sum_eq_zero_iff.mp h0
      exact this _ hmem)

/-- C7: whenever the placement written by the editor introduces a Player
or PlayerOnTarget cell, the resulting grid holds exactly one
player-bearing cell, and every other cell first has Player reset to
Floor and PlayerOnTarget reset to Target. -/
theorem editor_single_player (g : Grid) (x y : Nat) (tool : Cell)
    (hy : y < g.length) (hx : x < (g.getD y []).length)
    (hplay : isPlayerChar (editorNewCell (cellAtN g x y) tool) = true) :
    countPlayerCells (handleEditorCellClick g x y tool) = 1 ∧
    (∀ x' y' : Nat, (x' ≠ x ∨ y' ≠ y) →
      cellAtN (handleEditorCellClick g x y tool) x' y' =
        clearPlayerCell (cellAtN g x' y')) := by
  have hcond := editorNewCell_player_cases (cellAtN g x y) tool hplay
  constructor
  · simp only [handleEditorCellClick, hcond, if_true]
    rw [countPlayerCells_setCell_zero (clearPlayers g) x y _
      (by rw [clearPlayers_length]; exact hy)
      (by rw [clearPlayers_row_length]; exact hx)
      (countPlayerCells_clearPlayers g)]
    rw [hplay]
    simp
  · intro x' y' hne
    simp only [handleEditorCellClick, hcond, if_true]
    rw [cellAtN_setCell_ne _ _ _ _ _ _ hne, cellAtN_clearPlayers]

theorem editor_single_player_witness :
    countPlayerCells (handleEditorCellClick
      [['@', ' '], ['.', ' ']] 0 1 CellType.Player) = 1 ∧
    cellAtN (handleEditorCellClick [['@', ' '], ['.', ' ']] 0 1 CellType.Player)
        0 0 = CellType.Floor :=
  ⟨(editor_single_player [['@', ' '], ['.', ' ']] 0 1 CellType.Player
      (by decide) (by decide) (by decide)).1,
    by
      have h := (editor_single_player [['@', ' '], ['.', ' ']] 0 1 CellType.Player
        (by decide) (by decide) (by decide)).2 0 0 (by decide)
      rw [h]
      decide⟩

theorem parseLevel_gridToStrings_roundtrip_witness :
    (parseLevel (gridToStrings demoGrid)).grid = demoGrid :=
  parseLevel_gridToStrings_roundtrip demoGrid

theorem checkWin_iff_no_box_witness :
    checkWin [[' ', '@', '*']] = true :=
  (checkWin_iff_no_box [[' ', '@', '*']]).mpr (by decide)
